import Mathlib

/-!
Formal model of the choirbook song-management script (`manage_songs.py`).

The reconciliation engine is embedded shallowly:
* Python strings are sequences of Unicode code points, modelled as `List Char`
  (`PyStr`); `str.rstrip`, `str.strip` and `str.splitlines` are reproduced
  including their full whitespace / line-boundary character sets.
* Python sets of strings (the tag sets) are modelled as `Finset String`.
* The filesystem and the Airtable HTTP transport are external collaborators;
  they appear as explicit parameters (a lookup function for documents, a
  response function for the PATCH endpoint, and option-valued fault
  injectors for the places where the script catches exceptions).
-/

/-- Python strings: sequences of Unicode code points. -/
abbrev PyStr := List Char

/-- The characters for which Python's `str.isspace()` returns `True`; this is
the character set stripped by `str.rstrip()` / `str.strip()` with no
arguments. -/
def pyIsSpace (c : Char) : Bool :=
  c == ' ' || c == '\t' || c == '\n' || c == '\x0B' || c == '\x0C' || c == '\r' ||
  c == '\x1C' || c == '\x1D' || c == '\x1E' || c == '\x1F' || c == '\x85' ||
  c == '\xA0' || c == ' ' || c == ' ' || c == ' ' || c == ' ' ||
  c == ' ' || c == ' ' || c == ' ' || c == ' ' || c == ' ' ||
  c == ' ' || c == ' ' || c == ' ' || c == ' ' || c == ' ' ||
  c == ' ' || c == ' ' || c == '　'

/-- The line boundaries recognised by Python's `str.splitlines()`
(besides the two-character boundary `"\r\n"`, which is handled in
`splitlines` itself). -/
def isLineBoundary (c : Char) : Bool :=
  c == '\n' || c == '\r' || c == '\x0B' || c == '\x0C' ||
  c == '\x1C' || c == '\x1D' || c == '\x1E' || c == '\x85' ||
  c == ' ' || c == ' '

/-- Python `str.rstrip()`: remove trailing whitespace. -/
def rstrip (s : PyStr) : PyStr := (s.reverse.dropWhile pyIsSpace).reverse

/-- Python `str.lstrip()`: remove leading whitespace. -/
def lstrip (s : PyStr) : PyStr := s.dropWhile pyIsSpace

/-- Python `str.strip()`: remove leading and trailing whitespace. -/
def pyStrip (s : PyStr) : PyStr := rstrip (lstrip s)

/-- Helper for `splitlines`: prepend a character to the first line of an
already-split tail (used for non-boundary characters). -/
def consFirst (c : Char) : List PyStr → List PyStr
  | [] => [[c]]
  | l :: ls => (c :: l) :: ls

/-- Python `str.splitlines()`: split at every line boundary, treating
`"\r\n"` as a single boundary, and do not produce a final empty line for a
string that ends in a boundary. -/
def splitlines : PyStr → List PyStr
  | [] => []
  | c :: cs =>
    if isLineBoundary c then
      match cs with
      | c2 :: cs2 =>
        if c = '\r' ∧ c2 = '\n' then [] :: splitlines cs2
        else [] :: splitlines (c2 :: cs2)
      | [] => [[]]
    else consFirst c (splitlines cs)

/-- Join a list of lines with `'\n'` separators (Python `"\n".join(lines)`). -/
def joinNL : List PyStr → PyStr
  | [] => []
  | [q] => q
  | q :: qs => q ++ '\n' :: joinNL qs

/-- The per-line rule of `SongFileManager.normalize_content_spacing` applied to
every line except the last: `line.rstrip() + '  ' if line.rstrip() else ''`. -/
def normLine (line : PyStr) : PyStr :=
  if rstrip line = [] then [] else rstrip line ++ [' ', ' ']

/-- The line list produced by `normalize_content_spacing` from the line list of
the original content: `lines[:-1]` mapped through the two-space rule, then the
last line with trailing whitespace stripped. -/
def outPieces (ps : List PyStr) : List PyStr :=
  ps.dropLast.map normLine ++ [rstrip (ps.getLast?.getD [])]

/-- The pure content transformation performed by
`SongFileManager.normalize_content_spacing` (lines 163-197 of
`manage_songs.py`): empty content is returned unchanged (the function
early-returns), otherwise the lines are normalized, joined with `"\n"`, and a
single `"\n"` is appended exactly when the original content ended with
`'\n'`. -/
def pyNormalize (content : PyStr) : PyStr :=
  if content = [] then content
  else if splitlines content = [] then content
  else
    joinNL (outPieces (splitlines content)) ++
      (if content.getLast? = some '\n' then ['\n'] else [])

/-- Number of `'\n'` characters at the very end of a string. -/
def trailingNewlineCount (s : PyStr) : Nat :=
  (s.reverse.takeWhile (fun c => c == '\n')).length

/-! ## Outcome taxonomy and data model -/

/-- The status enum `UpdateStatus`.  In the Python `Enum` the four members
carry the glyphs `"🟢"`, `"🟡"`, `"🔴"`, `"🔴"`; the script only ever compares
a status against `UPDATED`, so the four names are modelled as distinct
constructors and the rendered glyph is recovered by `UpdateStatus.value`. -/
inductive UpdateStatus where
  | success
  | updated
  | failed
  | notFound
deriving DecidableEq

/-- The `value` carried by each enum member (`FAILED` and `NOT_FOUND` share
the same glyph). -/
def UpdateStatus.value : UpdateStatus → String
  | .success => "🟢"
  | .updated => "🟡"
  | .failed => "🔴"
  | .notFound => "🔴"

/-- `UpdateResult`: status, human-readable message, song title. -/
structure UpdateResult where
  status : UpdateStatus
  message : String
  title : String
deriving DecidableEq

/-- `SongData`: one parsed Airtable record. -/
structure SongData where
  title : String
  language : String
  sung_as : List String
  occasion : List String
  song_type : List String
deriving DecidableEq

/-- `SongData.all_tags`: `set(sung_as) | set(occasion) | set(song_type)`. -/
def SongData.all_tags (sd : SongData) : Finset String :=
  sd.sung_as.toFinset ∪ sd.occasion.toFinset ∪ sd.song_type.toFinset

/-- A local markdown document: the frontmatter `tags` list plus the content
body (the part after the structured header). -/
structure Doc where
  tags : List String
  content : PyStr
deriving DecidableEq

/-- Fault injector for the two file operations inside `update_song_file`:
`some e` means the corresponding frontmatter load/compute/save raises an
exception with text `e`. -/
structure StepEnv where
  tagExc : Option String
  contentExc : Option String
deriving DecidableEq

/-- The environment in which no file operation raises. -/
def noExc : StepEnv := ⟨none, none⟩

/-! ## Tag reconciliation and the tag/content mode -/

/-- Lines 142-148 of `update_song_tags`, as a pure reconciliation
`(changed, added, removed)` over the current and desired tag sets:
`added = desired − current`, `removed = current − desired`, and the update is
skipped exactly when both are empty. -/
def reconcile (currentTags desiredTags : Finset String) :
    Bool × Finset String × Finset String :=
  let added := desiredTags \ currentTags
  let removed := currentTags \ desiredTags
  if added = ∅ ∧ removed = ∅ then (false, added, removed)
  else (true, added, removed)

/-- Python `sorted` on a set of strings (lexicographic by code point). -/
def sortTags (s : Finset String) : List String := s.sort (· ≤ ·)

/-- The pure part of `SongFileManager.update_song_tags`: reconcile the loaded
tag set against the desired one; when changed, build the `Added`/`Removed`
message and store the sorted desired tags. -/
def update_song_tags_core (doc : Doc) (new_tags : Finset String) :
    Bool × String × Doc :=
  match reconcile doc.tags.toFinset new_tags with
  | (changed, added, removed) =>
    if changed then
      let tagMessages :=
        (if added ≠ ∅ then ["Added: " ++ ", ".intercalate (sortTags added)] else []) ++
        (if removed ≠ ∅ then ["Removed: " ++ ", ".intercalate (sortTags removed)] else [])
      (true, " | ".intercalate tagMessages, { doc with tags := sortTags new_tags })
    else (false, "", doc)

/-- `SongFileManager.update_song_tags` with its `try/except` (an exception is
surfaced as `FileOperationError("Failed to update tags: ...")`).  Returns
`(changed, message, document state, number of file writes)`; the file is
dumped exactly when the tag set changed. -/
def update_song_tags (env : StepEnv) (doc : Doc) (new_tags : Finset String) :
    Except String (Bool × String × Doc × Nat) :=
  match env.tagExc with
  | some e => .error ("Failed to update tags: " ++ e)
  | none =>
    match update_song_tags_core doc new_tags with
    | (changed, msg, doc1) =>
      if changed then .ok (true, msg, doc1, 1) else .ok (false, msg, doc1, 0)

/-- `SongFileManager.normalize_content_spacing` with its `try/except` (an
exception is surfaced as `FileOperationError("Failed to normalize content:
...")`): compute the normalized content and dump the file exactly when it
differs from the loaded content. -/
def normalize_content_spacing (env : StepEnv) (doc : Doc) :
    Except String (Bool × String × Doc × Nat) :=
  match env.contentExc with
  | some e => .error ("Failed to normalize content: " ++ e)
  | none =>
    let newContent := pyNormalize doc.content
    if doc.content = newContent then .ok (false, "", doc, 0)
    else .ok (true, "Updated content spacing", { doc with content := newContent }, 1)

/-- `SongFileManager.update_song_file`: run the tag update, then the content
normalization on the document produced by the tag update, join the non-empty
messages with `" | "`, and convert any exception into a `FAILED` outcome.
Returns `(outcome, final document state, total number of file writes)`. -/
def update_song_file (env : StepEnv) (doc : Doc) (sd : SongData) :
    UpdateResult × Doc × Nat :=
  match update_song_tags env doc sd.all_tags with
  | .error e => (⟨.failed, e, sd.title⟩, doc, 0)
  | .ok (tagsUpdated, tagMessage, doc1, w1) =>
    match normalize_content_spacing env doc1 with
    | .error e => (⟨.failed, e, sd.title⟩, doc1, w1)
    | .ok (contentUpdated, contentMessage, doc2, w2) =>
      let messages := [tagMessage, contentMessage].filter (· ≠ "")
      if tagsUpdated || contentUpdated then
        (⟨.updated, " | ".intercalate messages, sd.title⟩, doc2, w1 + w2)
      else (⟨.success, "No update needed", sd.title⟩, doc2, w1 + w2)

/-! ## Record parsing and the batch pipelines -/

/-- The fields of one fetched Airtable record, as read by the script
(`title`, `language`, `"Sung as"`, `"Ocassion"`, `"Type"`, `lyrics`). -/
structure AirtableFields where
  title? : Option String
  language? : Option String
  sungAs : List String
  occasion : List String
  songType : List String
  lyrics? : Option PyStr
deriving DecidableEq

/-- One fetched Airtable record: opaque id plus fields. -/
structure AirtableRecord where
  id : String
  fields : AirtableFields
deriving DecidableEq

/-- `SongDataParser.parse_record`: a record with a missing or empty (falsy)
title yields `None`; `language` defaults to `"English"` and the three tag
lists default to `[]`. -/
def parse_record (rec : AirtableRecord) : Option SongData :=
  match rec.fields.title? with
  | none => none
  | some t =>
    if t = "" then none
    else some ⟨t, rec.fields.language?.getD "English",
               rec.fields.sungAs, rec.fields.occasion, rec.fields.songType⟩

/-- Document store for tag/content mode: `(title, language)` resolves to a
document together with the fault injector for its file operations, or to
`none` when `get_song_file_path` finds no file. -/
abbrev TagStore := String → String → Option (Doc × StepEnv)

/-- `SongUpdater._process_single_song`. -/
def process_single_song (store : TagStore) (sd : SongData) : UpdateResult :=
  match store sd.title sd.language with
  | none => ⟨.notFound, "File not found", sd.title⟩
  | some (doc, env) => (update_song_file env doc sd).1

/-- `SongUpdater._process_songs`: iterate the fetched batch in order, skipping
records without a parsable title (`continue`), collecting one outcome per
processed record. -/
def process_songs (store : TagStore) (records : List AirtableRecord) :
    List UpdateResult :=
  records.filterMap (fun rec => (parse_record rec).map (process_single_song store))

/-! ## Lyrics-sync mode -/

/-- `SongFileManager.read_song_lyrics`: `post.content.strip()` when the
content is non-empty (truthy), `None` otherwise. -/
def read_song_lyrics (doc : Doc) : Option PyStr :=
  if doc.content = [] then none else some (pyStrip doc.content)

/-- One outbound partial-update payload (an entry of `records_to_update`):
record id, the `Lyrics` field, and the three tag-source fields when the
parsed record carried them non-empty. -/
structure Payload where
  id : String
  lyrics : PyStr
  sungAs : Option (List String)
  occasion : Option (List String)
  songType : Option (List String)
deriving DecidableEq

/-- `SongUpdater._process_single_lyrics_sync` for one record, given the result
of the path lookup (`none` = file not found) paired with a fault injector for
`read_song_lyrics` (`some e` = the read raises `FileOperationError` with text
`e`). -/
def process_single_lyrics (lookup : Option (Doc × Option String)) (sd : SongData)
    (rec : AirtableRecord) : UpdateResult × Option Payload :=
  match lookup with
  | none => (⟨.notFound, "File not found", sd.title⟩, none)
  | some (doc, readExc) =>
    match readExc with
    | some e => (⟨.failed, e, sd.title⟩, none)
    | none =>
      match read_song_lyrics doc with
      | none => (⟨.failed, "No lyrics content found", sd.title⟩, none)
      | some lyrics =>
        if lyrics = [] then (⟨.failed, "No lyrics content found", sd.title⟩, none)
        else
          let existing := rec.fields.lyrics?.getD []
          if existing ≠ [] ∧ pyStrip existing = lyrics then
            (⟨.success, "Lyrics already up to date", sd.title⟩, none)
          else
            (⟨.updated,
              if existing = [] then "Lyrics will be synced" else "Lyrics will be updated",
              sd.title⟩,
             some ⟨rec.id, lyrics,
                   if sd.sung_as ≠ [] then some sd.sung_as else none,
                   if sd.occasion ≠ [] then some sd.occasion else none,
                   if sd.song_type ≠ [] then some sd.song_type else none⟩)

/-- Document store for lyrics-sync mode. -/
abbrev LyricsStore := String → String → Option (Doc × Option String)

/-- The planning loop of `_sync_lyrics_process`: per parsable record, the
outcome and the optional pending payload, in record order. -/
def planPairs (store : LyricsStore) (records : List AirtableRecord) :
    List (UpdateResult × Option Payload) :=
  records.filterMap (fun rec =>
    (parse_record rec).map (fun sd =>
      process_single_lyrics (store sd.title sd.language) sd rec))

/-- The retro-flip applied to one result when the batched submission fails
(lines 305-308 of `_sync_lyrics_process`). -/
def flipOne (r : UpdateResult) : UpdateResult :=
  if r.status = .updated then ⟨.failed, "Failed to sync to Airtable", r.title⟩ else r

/-- Mark all pending updates as failed: every result previously `UPDATED` is
flipped to `FAILED` with message `"Failed to sync to Airtable"`. -/
def flipUpdated (results : List UpdateResult) : List UpdateResult :=
  results.map flipOne

/-- `SongUpdater._sync_lyrics_process`: plan the whole batch, then — only when
there are pending payloads — submit them in one guarded step; `submitFails`
abstracts whether `update_records` raises `AirtableAPIError`, in which case
every `UPDATED` decision is retro-flipped. -/
def sync_lyrics_process (store : LyricsStore) (submitFails : Bool)
    (records : List AirtableRecord) : List UpdateResult :=
  let pairs := planPairs store records
  let results := pairs.map Prod.fst
  let toUpdate := pairs.filterMap Prod.snd
  if toUpdate ≠ [] ∧ submitFails then flipUpdated results else results

/-! ## Batched outbound writes -/

/-- The slicing loop of `AirtableClient.update_records`:
`records[i:i + batch_size]` for `i = 0, 10, 20, ...` with `batch_size = 10`. -/
def toBatches {α : Type} : List α → List (List α)
  | [] => []
  | r :: rs => (r :: rs).take 10 :: toBatches ((r :: rs).drop 10)
termination_by l => l.length
decreasing_by
  simp only [List.length_drop, List.length_cons]
  omega

/-- `AirtableClient.update_records`: an empty input short-circuits with
`{"records": []}` and performs no HTTP call; otherwise the records are
PATCHed in batches of 10 and the per-batch response records are concatenated.
The first component is the list of PATCH requests performed (one entry per
call, in submission order); `resp` models the remote's response records for
one PATCH. -/
def update_records {α β : Type} (resp : List α → List β) (records : List α) :
    List (List α) × List β :=
  match records with
  | [] => ([], [])
  | _ :: _ =>
    let batches := toBatches records
    (batches, (batches.map resp).flatten)

/-! ## Lemmas about the string model -/

theorem dropWhile_idem (p : Char → Bool) (l : PyStr) :
    (l.dropWhile p).dropWhile p = l.dropWhile p := by
  induction l with
  | nil => rfl
  | cons a l ih =>
    by_cases h : p a
    · simp [List.dropWhile_cons, h, ih]
    · simp [List.dropWhile_cons, h]

theorem rstrip_rstrip (s : PyStr) : rstrip (rstrip s) = rstrip s := by
  simp [rstrip, List.reverse_reverse, dropWhile_idem]

theorem dropWhile_head_false {p : Char → Bool} :
    ∀ {l a : _} {t : PyStr}, List.dropWhile p l = a :: t → p a = false
  | [], a, t, h => by simp [List.dropWhile] at h
  | b :: l, a, t, h => by
    rw [List.dropWhile_cons] at h
    split at h
    · exact dropWhile_head_false h
    · rename_i hb
      injection h with h1 _
      subst h1
      simpa using hb

theorem rstrip_getLast?_false {s : PyStr} {c : Char}
    (h : (rstrip s).getLast? = some c) : pyIsSpace c = false := by
  unfold rstrip at h
  rw [List.getLast?_reverse] at h
  cases hd : s.reverse.dropWhile pyIsSpace with
  | nil => rw [hd] at h; simp at h
  | cons a t =>
    rw [hd] at h
    simp only [List.head?_cons, Option.some.injEq] at h
    subst h
    exact dropWhile_head_false hd

theorem mem_rstrip {s : PyStr} {c : Char} (h : c ∈ rstrip s) : c ∈ s := by
  unfold rstrip at h
  rw [List.mem_reverse] at h
  have h2 : c ∈ s.reverse := (List.dropWhile_sublist (p := pyIsSpace)).mem h
  exact List.mem_reverse.mp h2

theorem rstrip_append_spaces (s : PyStr) : rstrip (s ++ [' ', ' ']) = rstrip s := by
  unfold rstrip
  rw [List.reverse_append]
  simp [List.dropWhile_cons, show pyIsSpace ' ' = true from rfl]

theorem normLine_normLine (l : PyStr) : normLine (normLine l) = normLine l := by
  unfold normLine
  split
  · simp [rstrip]
  · rename_i h
    rw [rstrip_append_spaces, rstrip_rstrip, if_neg h]

theorem splitlines_cons_nb {c : Char} (h : isLineBoundary c = false) (cs : PyStr) :
    splitlines (c :: cs) = consFirst c (splitlines cs) := by
  cases cs <;> simp [splitlines, h]

theorem splitlines_newline (r : PyStr) : splitlines ('\n' :: r) = [] :: splitlines r := by
  cases r with
  | nil => rfl
  | cons c2 cs2 => simp [splitlines, isLineBoundary]

theorem splitlines_bf_append (q r : PyStr)
    (hq : ∀ c ∈ q, isLineBoundary c = false) :
    splitlines (q ++ '\n' :: r) = q :: splitlines r := by
  induction q with
  | nil => simpa using splitlines_newline r
  | cons c q ih =>
    have hc : isLineBoundary c = false := hq c (List.mem_cons_self c q)
    have ih2 := ih (fun c' hc' => hq c' (List.mem_cons_of_mem c hc'))
    rw [List.cons_append, splitlines_cons_nb hc, ih2]
    rfl

theorem splitlines_bf (q : PyStr) (hq : ∀ c ∈ q, isLineBoundary c = false)
    (hne : q ≠ []) : splitlines q = [q] := by
  induction q with
  | nil => exact absurd rfl hne
  | cons c q ih =>
    have hc : isLineBoundary c = false := hq c (List.mem_cons_self c q)
    rw [splitlines_cons_nb hc]
    cases q with
    | nil => rfl
    | cons c2 q2 =>
      rw [ih (fun c' hc' => hq c' (List.mem_cons_of_mem c hc')) (by simp)]
      rfl

theorem splitlines_pieces_bf : ∀ (s : PyStr), ∀ q ∈ splitlines s, ∀ c ∈ q,
    isLineBoundary c = false
  | [] => by simp [splitlines]
  | c :: cs => by
    cases hb : isLineBoundary c with
    | true =>
      cases cs with
      | nil =>
        have heq : splitlines [c] = [[]] := by simp [splitlines, hb]
        intro q hq c' hc'
        rw [heq] at hq
        simp only [List.mem_singleton] at hq
        subst hq
        simp at hc'
      | cons c2 cs2 =>
        by_cases hrn : c = '\r' ∧ c2 = '\n'
        · obtain ⟨rfl, rfl⟩ := hrn
          have heq : splitlines ('\r' :: '\n' :: cs2) = [] :: splitlines cs2 := by
            simp [splitlines, isLineBoundary]
          rw [heq]
          intro q hq
          rcases List.mem_cons.mp hq with rfl | hq2
          · simp
          · exact splitlines_pieces_bf cs2 q hq2
        · have heq : splitlines (c :: c2 :: cs2) = [] :: splitlines (c2 :: cs2) := by
            simp [splitlines, hb, hrn]
          rw [heq]
          intro q hq
          rcases List.mem_cons.mp hq with rfl | hq2
          · simp
          · exact splitlines_pieces_bf (c2 :: cs2) q hq2
    | false =>
      rw [splitlines_cons_nb hb]
      intro q hq c' hc'
      cases hs : splitlines cs with
      | nil =>
        rw [hs] at hq
        simp only [consFirst, List.mem_singleton] at hq
        subst hq
        simp only [List.mem_singleton] at hc'
        subst hc'
        exact hb
      | cons l ls =>
        rw [hs] at hq
        simp only [consFirst] at hq
        rcases List.mem_cons.mp hq with rfl | hq2
        · rcases List.mem_cons.mp hc' with rfl | hc2
          · exact hb
          · exact splitlines_pieces_bf cs l (hs ▸ List.mem_cons_self l ls) c' hc2
        · exact splitlines_pieces_bf cs q (hs ▸ List.mem_cons_of_mem l hq2) c' hc'

theorem joinNL_cons_cons (q q' : PyStr) (qs : List PyStr) :
    joinNL (q :: q' :: qs) = q ++ '\n' :: joinNL (q' :: qs) := rfl

theorem getLast?_append_right {α : Type} : ∀ (l₁ l₂ : List α), l₂ ≠ [] →
    (l₁ ++ l₂).getLast? = l₂.getLast?
  | [], _, _ => by simp
  | a :: l₁, l₂, h => by
    rw [List.cons_append]
    cases hl : l₁ ++ l₂ with
    | nil => exact absurd (List.append_eq_nil.mp hl).2 h
    | cons b t =>
      rw [List.getLast?_cons_cons, ← hl]
      exact getLast?_append_right l₁ l₂ h

theorem joinNL_last (qs : List PyStr) (hne : qs ≠ [])
    (hl : qs.getLast?.getD [] ≠ []) :
    joinNL qs ≠ [] ∧ (joinNL qs).getLast? = (qs.getLast?.getD []).getLast? := by
  induction qs with
  | nil => exact absurd rfl hne
  | cons q qs ih =>
    cases qs with
    | nil =>
      refine ⟨by simpa using hl, by simp [joinNL]⟩
    | cons q' qs' =>
      have hl2 : (q' :: qs').getLast?.getD [] ≠ [] := by
        rwa [List.getLast?_cons_cons] at hl
      obtain ⟨hne2, heq2⟩ := ih (by simp) hl2
      constructor
      · rw [joinNL_cons_cons]; simp
      · rw [joinNL_cons_cons, getLast?_append_right _ _ (by simp),
          List.getLast?_cons_cons]
        cases hJ : joinNL (q' :: qs') with
        | nil => exact absurd hJ hne2
        | cons b t => rw [List.getLast?_cons_cons, ← hJ, heq2]

theorem splitlines_joinNL_nl (qs : List PyStr)
    (h : ∀ q ∈ qs, ∀ c ∈ q, isLineBoundary c = false) (hne : qs ≠ []) :
    splitlines (joinNL qs ++ ['\n']) = qs := by
  induction qs with
  | nil => exact absurd rfl hne
  | cons q qs ih =>
    cases qs with
    | nil =>
      rw [show joinNL [q] ++ ['\n'] = q ++ '\n' :: ([] : PyStr) from rfl]
      rw [splitlines_bf_append q [] (h q (by simp))]
      rfl
    | cons q' qs' =>
      rw [joinNL_cons_cons]
      rw [show (q ++ '\n' :: joinNL (q' :: qs')) ++ ['\n'] =
        q ++ '\n' :: (joinNL (q' :: qs') ++ ['\n']) by simp]
      rw [splitlines_bf_append q _ (h q (by simp))]
      rw [ih (fun p hp => h p (List.mem_cons_of_mem q hp)) (by simp)]

theorem splitlines_joinNL (qs : List PyStr)
    (h : ∀ q ∈ qs, ∀ c ∈ q, isLineBoundary c = false) (hne : qs ≠ [])
    (hlast : qs.getLast?.getD [] ≠ []) :
    splitlines (joinNL qs) = qs := by
  induction qs with
  | nil => exact absurd rfl hne
  | cons q qs ih =>
    cases qs with
    | nil =>
      have hq : q ≠ [] := by simpa using hlast
      exact splitlines_bf q (h q (by simp)) hq
    | cons q' qs' =>
      rw [joinNL_cons_cons, splitlines_bf_append q _ (h q (by simp))]
      rw [ih (fun p hp => h p (List.mem_cons_of_mem q hp)) (by simp)
        (by rwa [List.getLast?_cons_cons] at hlast)]

theorem outPieces_ne_nil (ps : List PyStr) : outPieces ps ≠ [] := by
  simp [outPieces]

theorem outPieces_idem (ps : List PyStr) :
    outPieces (outPieces ps) = outPieces ps := by
  unfold outPieces
  rw [List.dropLast_concat, List.getLast?_concat]
  simp only [Option.getD_some]
  rw [List.map_map, rstrip_rstrip]
  congr 1
  exact List.map_congr_left (fun a _ => normLine_normLine a)

theorem outPieces_last (ps : List PyStr) :
    (outPieces ps).getLast?.getD [] = rstrip (ps.getLast?.getD []) := by
  unfold outPieces
  rw [List.getLast?_concat]
  rfl

theorem outPieces_bf (ps : List PyStr)
    (h : ∀ q ∈ ps, ∀ c ∈ q, isLineBoundary c = false) :
    ∀ q ∈ outPieces ps, ∀ c ∈ q, isLineBoundary c = false := by
  intro q hq c hc
  unfold outPieces at hq
  rcases List.mem_append.mp hq with hq1 | hq2
  · obtain ⟨l, hl, rfl⟩ := List.mem_map.mp hq1
    have hlps : l ∈ ps := (List.dropLast_sublist ps).mem hl
    unfold normLine at hc
    split at hc
    · simp at hc
    · rcases List.mem_append.mp hc with hc1 | hc2
      · exact h l hlps c (mem_rstrip hc1)
      · have hsp : c = ' ' := by
          rcases List.mem_cons.mp hc2 with rfl | hc3
          · rfl
          · simpa using hc3
        subst hsp
        rfl
  · simp only [List.mem_singleton] at hq2
    subst hq2
    have hcl : c ∈ ps.getLast?.getD [] := mem_rstrip hc
    cases hps : ps.getLast? with
    | none => rw [hps] at hcl; simp at hcl
    | some l =>
      have hlps : l ∈ ps := List.mem_of_getLast?_eq_some hps
      rw [hps] at hcl
      simp only [Option.getD_some] at hcl
      exact h l hlps c hcl

theorem splitlines_ne_nil {s : PyStr} (h : s ≠ []) : splitlines s ≠ [] := by
  cases s with
  | nil => exact absurd rfl h
  | cons c cs =>
    cases hb : isLineBoundary c with
    | true =>
      cases cs with
      | nil => simp [splitlines, hb]
      | cons c2 cs2 =>
        by_cases hrn : c = '\r' ∧ c2 = '\n'
        · obtain ⟨rfl, rfl⟩ := hrn
          simp [splitlines, isLineBoundary]
        · simp [splitlines, hb, hrn]
    | false =>
      rw [splitlines_cons_nb hb]
      cases splitlines cs <;> simp [consFirst]

theorem pyNormalize_eq {x : PyStr} (hx : x ≠ []) :
    pyNormalize x = joinNL (outPieces (splitlines x)) ++
      (if x.getLast? = some '\n' then ['\n'] else []) := by
  unfold pyNormalize
  rw [if_neg hx, if_neg (splitlines_ne_nil hx)]

theorem pyNormalize_idem_of (x : PyStr)
    (hx : x = [] ∨ x.getLast? = some '\n' ∨
      rstrip ((splitlines x).getLast?.getD []) ≠ []) :
    pyNormalize (pyNormalize x) = pyNormalize x := by
  rcases eq_or_ne x [] with rfl | hne
  · rfl
  have hbf := splitlines_pieces_bf x
  have hqsne := outPieces_ne_nil (splitlines x)
  have hqsbf := outPieces_bf (splitlines x) hbf
  by_cases hend : x.getLast? = some '\n'
  · have hO : pyNormalize x = joinNL (outPieces (splitlines x)) ++ ['\n'] := by
      rw [pyNormalize_eq hne, if_pos hend]
    have hOne : pyNormalize x ≠ [] := by rw [hO]; simp
    have hsplit : splitlines (pyNormalize x) = outPieces (splitlines x) := by
      rw [hO]; exact splitlines_joinNL_nl _ hqsbf hqsne
    have hOend : (pyNormalize x).getLast? = some '\n' := by
      rw [hO, List.getLast?_concat]
    rw [pyNormalize_eq hOne, hsplit, if_pos hOend, outPieces_idem, ← hO]
  · have hlast : rstrip ((splitlines x).getLast?.getD []) ≠ [] := by
      rcases hx with h1 | h2 | h3
      · exact absurd h1 hne
      · exact absurd h2 hend
      · exact h3
    have hqlast : (outPieces (splitlines x)).getLast?.getD [] =
        rstrip ((splitlines x).getLast?.getD []) := outPieces_last _
    obtain ⟨hJne, hJlast⟩ := joinNL_last (outPieces (splitlines x)) hqsne
      (by rw [hqlast]; exact hlast)
    obtain ⟨c, hc⟩ : ∃ c, ((outPieces (splitlines x)).getLast?.getD []).getLast? = some c := by
      have hne2 : (outPieces (splitlines x)).getLast?.getD [] ≠ [] := by
        rw [hqlast]; exact hlast
      cases hcc : ((outPieces (splitlines x)).getLast?.getD []).getLast? with
      | none => exact absurd (List.getLast?_eq_none_iff.mp hcc) hne2
      | some c => exact ⟨c, rfl⟩
    have hcspace : pyIsSpace c = false := by
      rw [hqlast] at hc
      exact rstrip_getLast?_false hc
    have hcne : c ≠ '\n' := by
      intro hceq
      rw [hceq] at hcspace
      exact absurd hcspace (by decide)
    have hO : pyNormalize x = joinNL (outPieces (splitlines x)) := by
      rw [pyNormalize_eq hne, if_neg hend, List.append_nil]
    have hOne : pyNormalize x ≠ [] := by rw [hO]; exact hJne
    have hOend : ¬ (pyNormalize x).getLast? = some '\n' := by
      rw [hO, hJlast, hc]
      exact fun h => hcne (Option.some.inj h)
    have hsplit : splitlines (pyNormalize x) = outPieces (splitlines x) := by
      rw [hO]
      exact splitlines_joinNL _ hqsbf hqsne (by rw [hqlast]; exact hlast)
    rw [pyNormalize_eq hOne, hsplit, if_neg hOend, outPieces_idem, List.append_nil, ← hO]

theorem trailingNewlineCount_concat_nl {J : PyStr} {c : Char}
    (h : J.getLast? = some c) (hc : c ≠ '\n') :
    trailingNewlineCount (J ++ ['\n']) = 1 := by
  unfold trailingNewlineCount
  have hrev : (J ++ ['\n']).reverse = '\n' :: J.reverse := by simp
  rw [hrev, List.takeWhile_cons]
  simp only [beq_self_eq_true, if_true]
  cases hJr : J.reverse with
  | nil => simp
  | cons b t =>
    have h2 := List.head?_reverse J
    rw [hJr, h] at h2
    simp only [List.head?_cons, Option.some.injEq] at h2
    subst h2
    rw [List.takeWhile_cons, if_neg (by simp [hc])]
    rfl

theorem trailingNewlineCount_of_getLast {J : PyStr} {c : Char}
    (h : J.getLast? = some c) (hc : c ≠ '\n') :
    trailingNewlineCount J = 0 := by
  unfold trailingNewlineCount
  cases hJr : J.reverse with
  | nil => simp
  | cons b t =>
    have h2 := List.head?_reverse J
    rw [hJr, h] at h2
    simp only [List.head?_cons, Option.some.injEq] at h2
    subst h2
    rw [List.takeWhile_cons, if_neg (by simp [hc])]
    rfl

theorem splitlines_pyNormalize (x : PyStr) (hne : x ≠ [])
    (hlast : rstrip ((splitlines x).getLast?.getD []) ≠ []) :
    splitlines (pyNormalize x) = outPieces (splitlines x) := by
  have hbf := splitlines_pieces_bf x
  have hqsne := outPieces_ne_nil (splitlines x)
  have hqsbf := outPieces_bf (splitlines x) hbf
  by_cases hend : x.getLast? = some '\n'
  · rw [pyNormalize_eq hne, if_pos hend]
    exact splitlines_joinNL_nl _ hqsbf hqsne
  · rw [pyNormalize_eq hne, if_neg hend, List.append_nil]
    exact splitlines_joinNL _ hqsbf hqsne (by rw [outPieces_last]; exact hlast)

theorem joinNL_outPieces_last (x : PyStr)
    (hlast : rstrip ((splitlines x).getLast?.getD []) ≠ []) :
    ∃ c, joinNL (outPieces (splitlines x)) ≠ [] ∧
      (joinNL (outPieces (splitlines x))).getLast? = some c ∧ c ≠ '\n' := by
  obtain ⟨hJne, hJlast⟩ := joinNL_last (outPieces (splitlines x)) (outPieces_ne_nil _)
    (by rw [outPieces_last]; exact hlast)
  obtain ⟨c, hc⟩ : ∃ c, ((outPieces (splitlines x)).getLast?.getD []).getLast? = some c := by
    have hne2 : (outPieces (splitlines x)).getLast?.getD [] ≠ [] := by
      rw [outPieces_last]; exact hlast
    cases hcc : ((outPieces (splitlines x)).getLast?.getD []).getLast? with
    | none => exact absurd (List.getLast?_eq_none_iff.mp hcc) hne2
    | some c => exact ⟨c, rfl⟩
  have hcspace : pyIsSpace c = false := by
    rw [outPieces_last] at hc
    exact rstrip_getLast?_false hc
  refine ⟨c, hJne, by rw [hJlast]; exact hc, ?_⟩
  intro hceq
  rw [hceq] at hcspace
  exact absurd hcspace (by decide)

theorem pyNormalize_trailing_one (x : PyStr) (hne : x ≠ [])
    (hlast : rstrip ((splitlines x).getLast?.getD []) ≠ [])
    (hend : x.getLast? = some '\n') :
    trailingNewlineCount (pyNormalize x) = 1 := by
  obtain ⟨c, _, hJlast, hcne⟩ := joinNL_outPieces_last x hlast
  rw [pyNormalize_eq hne, if_pos hend]
  exact trailingNewlineCount_concat_nl hJlast hcne

theorem pyNormalize_trailing_zero (x : PyStr) (hne : x ≠ [])
    (hlast : rstrip ((splitlines x).getLast?.getD []) ≠ [])
    (hend : ¬ x.getLast? = some '\n') :
    trailingNewlineCount (pyNormalize x) = 0 := by
  obtain ⟨c, _, hJlast, hcne⟩ := joinNL_outPieces_last x hlast
  rw [pyNormalize_eq hne, if_neg hend, List.append_nil]
  exact trailingNewlineCount_of_getLast hJlast hcne

/-! ## Claim C2: idempotence of content normalization -/

/-- C2 (amended): content normalization is a pure, total function with
`normalize("") == ""`, and it is idempotent on every input that is empty,
ends with a newline character, or whose last line does not strip to empty:
for such `x`, `normalize(normalize(x)) == normalize(x)`.  (As stated for all
inputs the claim fails, see the counterexample `"a\n "`.) -/
theorem normalize_idempotent (x : PyStr)
    (hx : x = [] ∨ x.getLast? = some '\n' ∨
      rstrip ((splitlines x).getLast?.getD []) ≠ []) :
    pyNormalize (pyNormalize x) = pyNormalize x ∧ pyNormalize [] = [] :=
  ⟨pyNormalize_idem_of x hx, rfl⟩

/-- C2 counterexample: on `"a\n "` (second line a single space, no trailing
newline) normalization is not idempotent: the first pass yields `"a  \n"` and
the second pass yields `"a\n"`. -/
theorem normalize_idempotent_counterexample :
    pyNormalize ("a\n ".data) = "a  \n".data ∧
      pyNormalize ("a  \n".data) = "a\n".data ∧
      pyNormalize (pyNormalize ("a\n ".data)) ≠ pyNormalize ("a\n ".data) := by
  refine ⟨by decide, by decide, by decide⟩

/-- C2 witness: a concrete input ending in a newline, on which idempotence
holds by the theorem. -/
theorem normalize_idempotent_witness :
    (("ab \nc\n".data : PyStr).getLast? = some '\n') ∧
      pyNormalize (pyNormalize ("ab \nc\n".data)) = pyNormalize ("ab \nc\n".data) :=
  ⟨by decide, (normalize_idempotent ("ab \nc\n".data) (Or.inr (Or.inl (by decide)))).1⟩

/-! ## Claim C3: the shape of normalized content -/

/-- C3 (amended): for every non-empty input whose last line does not strip to
empty, normalization rewrites the line list so that every line except the
last is stripped of trailing whitespace and, when non-empty, suffixed with
exactly two spaces (empty lines stay empty), the last line is only stripped
(never suffixed), and the result ends with exactly one newline when the input
ended with `'\n'` and with none otherwise; in particular `"Line1\nLine2\n"`
normalizes to `"Line1  \nLine2\n"`.  (As stated for all inputs the
trailing-newline clause fails, see the counterexample `"a\n\n"`.) -/
theorem normalize_line_structure :
    (∀ x : PyStr, x ≠ [] →
      rstrip ((splitlines x).getLast?.getD []) ≠ [] →
      (splitlines (pyNormalize x) =
          (splitlines x).dropLast.map
            (fun line => if rstrip line = [] then [] else rstrip line ++ [' ', ' '])
          ++ [rstrip ((splitlines x).getLast?.getD [])]
        ∧ (x.getLast? = some '\n' → trailingNewlineCount (pyNormalize x) = 1)
        ∧ (x.getLast? ≠ some '\n' → trailingNewlineCount (pyNormalize x) = 0)))
    ∧ pyNormalize ("Line1\nLine2\n".data) = "Line1  \nLine2\n".data := by
  constructor
  · intro x hne hlast
    refine ⟨?_, ?_, ?_⟩
    · rw [splitlines_pyNormalize x hne hlast]
      rfl
    · intro hend
      exact pyNormalize_trailing_one x hne hlast hend
    · intro hend
      exact pyNormalize_trailing_zero x hne hlast hend
  · decide

/-- C3 counterexample: `"a\n\n"` ends with a newline, but its normalization
`"a  \n\n"` ends with two newlines, not exactly one; so the claim's
trailing-newline clause is false as stated. -/
theorem normalize_line_structure_counterexample :
    ("a\n\n".data : PyStr).getLast? = some '\n' ∧
      pyNormalize ("a\n\n".data) = "a  \n\n".data ∧
      trailingNewlineCount (pyNormalize ("a\n\n".data)) = 2 := by
  refine ⟨by decide, by decide, by decide⟩

/-- C3 witness: the claim instantiated on the spec's own scenario
`"Line1\nLine2\n"`. -/
theorem normalize_line_structure_witness :
    ("Line1\nLine2\n".data ≠ ([] : PyStr)) ∧
      rstrip ((splitlines ("Line1\nLine2\n".data)).getLast?.getD []) ≠ [] ∧
      trailingNewlineCount (pyNormalize ("Line1\nLine2\n".data)) = 1 :=
  ⟨by decide, by decide,
    (normalize_line_structure.1 ("Line1\nLine2\n".data) (by decide) (by decide)).2.1
      (by decide)⟩

/-! ## Claim C1: tag reconciliation -/

/-- C1: the reconciliation performed by `update_song_tags` computes
`added = desiredTags − currentTags` and `removed = currentTags − desiredTags`,
reports `changed` exactly when `added` or `removed` is non-empty, and
`reconcile(S, S) = (false, ∅, ∅)` for every tag set `S`; moreover the
`changed` flag of `update_song_tags_core` is exactly the reconciliation's
flag. -/
theorem reconcile_spec :
    (∀ A B : Finset String,
      (reconcile A B).2.1 = B \ A ∧
      (reconcile A B).2.2 = A \ B ∧
      ((reconcile A B).1 = true ↔ (B \ A).Nonempty ∨ (A \ B).Nonempty)) ∧
    (∀ S : Finset String, reconcile S S = (false, ∅, ∅)) ∧
    (∀ (doc : Doc) (new_tags : Finset String),
      (update_song_tags_core doc new_tags).1 =
        (reconcile doc.tags.toFinset new_tags).1) := by
  refine ⟨fun A B => ?_, fun S => ?_, fun doc new_tags => ?_⟩
  · unfold reconcile
    by_cases h : B \ A = ∅ ∧ A \ B = ∅
    · rw [if_pos h]
      refine ⟨rfl, rfl, ?_, ?_⟩
      · intro hF
        exact absurd hF (by simp)
      · rintro (hne | hne)
        · exact absurd h.1 (Finset.nonempty_iff_ne_empty.mp hne)
        · exact absurd h.2 (Finset.nonempty_iff_ne_empty.mp hne)
    · rw [if_neg h]
      refine ⟨rfl, rfl, fun _ => ?_, fun _ => rfl⟩
      rcases not_and_or.mp h with h1 | h1
      · exact Or.inl (Finset.nonempty_iff_ne_empty.mpr h1)
      · exact Or.inr (Finset.nonempty_iff_ne_empty.mpr h1)
  · unfold reconcile
    rw [Finset.sdiff_self]
    rw [if_pos ⟨rfl, rfl⟩]
  · rcases hrec : reconcile doc.tags.toFinset new_tags with ⟨changed, added, removed⟩
    unfold update_song_tags_core
    rw [hrec]
    cases changed <;> simp

/-! ## Claim C9: empty outbound update is a no-op -/

/-- C9: `update_records([])` returns `{"records": []}` and performs no PATCH
call at all (the list of performed calls is empty). -/
theorem update_records_empty (resp : List Payload → List Payload) :
    update_records resp [] = ([], []) := rfl

/-! ## Batching and retro-flip helpers -/

theorem update_records_calls {α β : Type} (resp : List α → List β) (l : List α) :
    (update_records resp l).1 = toBatches l := by
  cases l with
  | nil => simp [update_records, toBatches]
  | cons r rs => rfl

theorem toBatches_flatten {α : Type} (l : List α) : (toBatches l).flatten = l := by
  cases l with
  | nil => simp [toBatches]
  | cons r rs =>
    rw [toBatches, List.flatten_cons, toBatches_flatten ((r :: rs).drop 10)]
    exact List.take_append_drop 10 (r :: rs)
termination_by l.length
decreasing_by
  simp only [List.length_drop, List.length_cons]
  omega

theorem toBatches_mem {α : Type} (l : List α) :
    ∀ b ∈ toBatches l, b ≠ [] ∧ b.length ≤ 10 := by
  cases l with
  | nil => simp [toBatches]
  | cons r rs =>
    rw [toBatches]
    intro b hb
    rcases List.mem_cons.mp hb with rfl | hb2
    · refine ⟨by simp, ?_⟩
      rw [List.length_take]
      exact min_le_left _ _
    · exact toBatches_mem ((r :: rs).drop 10) b hb2
termination_by l.length
decreasing_by
  simp only [List.length_drop, List.length_cons]
  omega

theorem toBatches_cons_eq {α : Type} (l : List α) (h : l ≠ []) :
    toBatches l = l.take 10 :: toBatches (l.drop 10) := by
  cases l with
  | nil => exact absurd rfl h
  | cons r rs => rw [toBatches]

theorem toBatches_len25 {α : Type} (l : List α) (h : l.length = 25) :
    (toBatches l).map List.length = [10, 10, 5] := by
  have h1 : l ≠ [] := by
    intro he
    rw [he] at h
    simp at h
  have hd1 : (l.drop 10).length = 15 := by simp [List.length_drop, h]
  have h2 : l.drop 10 ≠ [] := by
    intro he
    rw [he] at hd1
    simp at hd1
  have hd2 : ((l.drop 10).drop 10).length = 5 := by simp [List.length_drop, h]
  have h3 : (l.drop 10).drop 10 ≠ [] := by
    intro he
    rw [he] at hd2
    simp at hd2
  have hd3 : (((l.drop 10).drop 10).drop 10).length = 0 := by
    simp [List.length_drop, h]
  have h4 : ((l.drop 10).drop 10).drop 10 = [] :=
    List.eq_nil_of_length_eq_zero hd3
  rw [toBatches_cons_eq l h1, toBatches_cons_eq _ h2, toBatches_cons_eq _ h3, h4]
  rw [show toBatches ([] : List α) = [] by simp [toBatches]]
  simp [List.length_take, h, hd1, hd2]

theorem flipUpdated_zip (rs : List UpdateResult) :
    ∀ pr ∈ rs.zip (flipUpdated rs),
      (pr.1.status = .updated →
        pr.2 = ⟨.failed, "Failed to sync to Airtable", pr.1.title⟩) ∧
      (pr.1.status ≠ .updated → pr.2 = pr.1) := by
  induction rs with
  | nil => simp [flipUpdated]
  | cons r rs ih =>
    intro pr hpr
    rw [flipUpdated, List.map_cons, List.zip_cons_cons] at hpr
    rcases List.mem_cons.mp hpr with rfl | hpr2
    · constructor
      · intro hst
        simp only [flipOne, if_pos hst]
      · intro hst
        simp only [flipOne, if_neg hst]
    · exact ih pr hpr2

theorem flipUpdated_no_updated (rs : List UpdateResult) :
    ∀ r ∈ flipUpdated rs, r.status ≠ .updated := by
  intro r hr
  obtain ⟨r0, _, rfl⟩ := List.mem_map.mp hr
  unfold flipOne
  split
  · simp
  · rename_i hst
    exact hst

theorem sync_lyrics_flip_eq (store : LyricsStore) (records : List AirtableRecord) :
    sync_lyrics_process store true records =
      (if (planPairs store records).filterMap Prod.snd = []
        then sync_lyrics_process store false records
        else flipUpdated (sync_lyrics_process store false records)) := by
  unfold sync_lyrics_process
  by_cases h : (planPairs store records).filterMap Prod.snd = []
  · rw [if_pos h]
    simp [h]
  · rw [if_neg h]
    simp [h]

/-! ## Claim C4: batching in groups of 10 and atomic failure reporting -/

/-- C4: pending payloads are PATCHed in fixed-size groups of at most 10 whose
concatenation, in order, is exactly the pending list (so 25 payloads give
groups of sizes 10, 10, 5); when the batched submission fails, every decision
previously marked `UPDATED` is flipped to `FAILED` with message
`"Failed to sync to Airtable"` while no flipped list retains an `UPDATED`
entry, and a failing run's result list is exactly the flip of the successful
run's. -/
theorem lyrics_sync_batching :
    (∀ (resp : List Payload → List Payload) (payloads : List Payload),
      (update_records resp payloads).1.flatten = payloads ∧
      ∀ b ∈ (update_records resp payloads).1, b ≠ [] ∧ b.length ≤ 10) ∧
    (∀ (resp : List Payload → List Payload) (payloads : List Payload),
      payloads.length = 25 →
      (update_records resp payloads).1.map List.length = [10, 10, 5]) ∧
    (∀ rs : List UpdateResult,
      (∀ pr ∈ rs.zip (flipUpdated rs), pr.1.status = .updated →
        pr.2 = ⟨.failed, "Failed to sync to Airtable", pr.1.title⟩) ∧
      ∀ r ∈ flipUpdated rs, r.status ≠ .updated) ∧
    (∀ (store : LyricsStore) (records : List AirtableRecord),
      sync_lyrics_process store true records =
        if (planPairs store records).filterMap Prod.snd = []
          then sync_lyrics_process store false records
          else flipUpdated (sync_lyrics_process store false records)) := by
  refine ⟨fun resp payloads => ⟨?_, ?_⟩, fun resp payloads h25 => ?_,
    fun rs => ⟨?_, ?_⟩, fun store records => ?_⟩
  · rw [update_records_calls]
    exact toBatches_flatten payloads
  · rw [update_records_calls]
    exact toBatches_mem payloads
  · rw [update_records_calls]
    exact toBatches_len25 payloads h25
  · intro pr hpr hst
    exact (flipUpdated_zip rs pr hpr).1 hst
  · exact flipUpdated_no_updated rs
  · exact sync_lyrics_flip_eq store records

/-- C4 witness: 25 identical payloads are split into groups of sizes
10, 10, 5, and a singleton `UPDATED` result is flipped to the
`"Failed to sync to Airtable"` failure. -/
theorem lyrics_sync_batching_witness :
    ((List.replicate 25 (⟨"r", [], none, none, none⟩ : Payload)).length = 25) ∧
    ((update_records id
        (List.replicate 25 (⟨"r", [], none, none, none⟩ : Payload))).1.map
      List.length = [10, 10, 5]) ∧
    (((⟨.updated, "m", "t"⟩ : UpdateResult),
      (⟨.failed, "Failed to sync to Airtable", "t"⟩ : UpdateResult)).2 =
      ⟨.failed, "Failed to sync to Airtable",
        ((⟨.updated, "m", "t"⟩ : UpdateResult),
         (⟨.failed, "Failed to sync to Airtable", "t"⟩ : UpdateResult)).1.title⟩) :=
  ⟨by decide,
   lyrics_sync_batching.2.1 id _ (by decide),
   (lyrics_sync_batching.2.2.1 [⟨.updated, "m", "t"⟩]).1
     (⟨.updated, "m", "t"⟩, ⟨.failed, "Failed to sync to Airtable", "t"⟩)
     (by decide) (by decide)⟩

/-! ## Claim C10: the retro-flip leaves every non-updated outcome intact -/

/-- C10: flipping after a failed batched submission preserves the length (and
hence order, being an index-wise map) of the result list, and every result
whose status is `Unchanged` (`SUCCESS`), `NotFound` or `Failed` keeps exactly
its prior status, message and title. -/
theorem flip_preserves_others (rs : List UpdateResult) :
    (flipUpdated rs).length = rs.length ∧
    ∀ pr ∈ rs.zip (flipUpdated rs),
      (pr.1.status = .success ∨ pr.1.status = .notFound ∨ pr.1.status = .failed) →
      pr.2 = pr.1 := by
  refine ⟨by simp [flipUpdated], fun pr hpr hst => ?_⟩
  apply (flipUpdated_zip rs pr hpr).2
  rcases hst with h | h | h <;> simp [h]

/-- C10 witness: a `SUCCESS` result paired with its image under the flip is
unchanged, on a concrete two-element run. -/
theorem flip_preserves_others_witness :
    (flipUpdated [(⟨.success, "ok", "t"⟩ : UpdateResult), ⟨.updated, "m", "u"⟩]).length =
      [(⟨.success, "ok", "t"⟩ : UpdateResult), ⟨.updated, "m", "u"⟩].length ∧
    ((⟨.success, "ok", "t"⟩ : UpdateResult),
     (⟨.success, "ok", "t"⟩ : UpdateResult)).2 =
      ((⟨.success, "ok", "t"⟩ : UpdateResult),
       (⟨.success, "ok", "t"⟩ : UpdateResult)).1 :=
  ⟨(flip_preserves_others [⟨.success, "ok", "t"⟩, ⟨.updated, "m", "u"⟩]).1,
   (flip_preserves_others [⟨.success, "ok", "t"⟩, ⟨.updated, "m", "u"⟩]).2
     (⟨.success, "ok", "t"⟩, ⟨.success, "ok", "t"⟩) (by decide) (Or.inl (by decide))⟩

/-! ## Characterizing update_song_file -/

theorem update_song_tags_core_eq (doc : Doc) (t : Finset String) :
    update_song_tags_core doc t =
      (if (reconcile doc.tags.toFinset t).1 = true then
        ((true : Bool), (update_song_tags_core doc t).2.1, { doc with tags := sortTags t })
      else ((false : Bool), "", doc)) := by
  rcases hrec : reconcile doc.tags.toFinset t with ⟨c, a, r⟩
  cases c with
  | true => simp [update_song_tags_core, hrec]
  | false => simp [update_song_tags_core, hrec]

theorem update_song_file_noExc (doc : Doc) (sd : SongData) :
    update_song_file noExc doc sd =
      (if (update_song_tags_core doc sd.all_tags).1 = true ∨
          ¬ pyNormalize doc.content = doc.content then
        (⟨.updated,
          " | ".intercalate
            (([(update_song_tags_core doc sd.all_tags).2.1,
               if pyNormalize doc.content = doc.content then ""
               else "Updated content spacing"]).filter (· ≠ "")),
          sd.title⟩,
         ⟨(if (update_song_tags_core doc sd.all_tags).1 = true
             then sortTags sd.all_tags else doc.tags),
          pyNormalize doc.content⟩,
         (if (update_song_tags_core doc sd.all_tags).1 = true then 1 else 0) +
           (if pyNormalize doc.content = doc.content then 0 else 1))
      else
        (⟨.success, "No update needed", sd.title⟩, doc, 0)) := by
  unfold update_song_file update_song_tags normalize_content_spacing noExc
  rw [update_song_tags_core_eq]
  by_cases hrc : (reconcile doc.tags.toFinset sd.all_tags).1 = true
  · rw [if_pos hrc]
    by_cases hnc : doc.content = pyNormalize doc.content
    · simp [hrc, hnc.symm, ← hnc]
    · have hnc2 : ¬ pyNormalize doc.content = doc.content := fun h => hnc h.symm
      simp [hrc, hnc, hnc2]
  · rw [if_neg hrc]
    by_cases hnc : doc.content = pyNormalize doc.content
    · simp [hrc, hnc.symm, ← hnc]
    · have hnc2 : ¬ pyNormalize doc.content = doc.content := fun h => hnc h.symm
      simp [hrc, hnc, hnc2]

/-! ## Claim C5: outcome classification in tag/content mode -/

/-- C5: for a record with a resolvable title and an existing document, if the
tag reconciliation or the content normalization changed anything the outcome
is `Updated` with the non-empty clauses joined by `" | "` (empty clauses
omitted); if neither changed it is `Unchanged` (`SUCCESS`) with message
`"No update needed"`; an exception in either file operation becomes a
`Failed` outcome carrying the error text; and the batch loop processes the
remaining records regardless of the outcome of the current one. -/
theorem tag_content_outcomes :
    (∀ (doc : Doc) (sd : SongData),
      ((update_song_tags_core doc sd.all_tags).1 = true ∨
          pyNormalize doc.content ≠ doc.content →
        (update_song_file noExc doc sd).1 =
          ⟨.updated,
            " | ".intercalate
              (([(update_song_tags_core doc sd.all_tags).2.1,
                 if pyNormalize doc.content = doc.content then ""
                 else "Updated content spacing"]).filter (· ≠ "")),
            sd.title⟩) ∧
      ((update_song_tags_core doc sd.all_tags).1 = false ∧
          pyNormalize doc.content = doc.content →
        (update_song_file noExc doc sd).1 =
          ⟨.success, "No update needed", sd.title⟩)) ∧
    (∀ (doc : Doc) (sd : SongData) (e : String) (cExc : Option String),
      (update_song_file ⟨some e, cExc⟩ doc sd).1 =
        ⟨.failed, "Failed to update tags: " ++ e, sd.title⟩) ∧
    (∀ (doc : Doc) (sd : SongData) (e : String),
      (update_song_file ⟨none, some e⟩ doc sd).1 =
        ⟨.failed, "Failed to normalize content: " ++ e, sd.title⟩) ∧
    (∀ (store : TagStore) (rec : AirtableRecord) (rest : List AirtableRecord)
        (sd : SongData), parse_record rec = some sd →
      process_songs store (rec :: rest) =
        process_single_song store sd :: process_songs store rest) := by
  refine ⟨fun doc sd => ⟨fun hch => ?_, fun hun => ?_⟩,
    fun doc sd e cExc => rfl, fun doc sd e => ?_, fun store rec rest sd hparse => ?_⟩
  · rw [update_song_file_noExc, if_pos hch]
  · rw [update_song_file_noExc, if_neg ?_]
    rintro (h1 | h2)
    · rw [hun.1] at h1
      exact Bool.false_ne_true h1
    · exact h2 hun.2
  · rcases hcore : update_song_tags_core doc sd.all_tags with ⟨changed, msg, doc1⟩
    unfold update_song_file update_song_tags normalize_content_spacing
    rw [hcore]
    cases changed <;> rfl
  · simp [process_songs, List.filterMap_cons, hparse]

/-- C5 witness: the spec's own scenario — record
`{title: "Amazing Grace", sungAs: ["Offertory"], songType: ["Hymn"]}` against
a document tagged `["Hymn"]` with already-normalized content — yields
`Updated` with detail `"Added: Offertory"`. -/
theorem tag_content_outcomes_witness :
    ((update_song_tags_core ⟨["Hymn"], "x\n".data⟩
        (⟨"Amazing Grace", "English", ["Offertory"], [], ["Hymn"]⟩ : SongData).all_tags).1
      = true) ∧
    (update_song_file noExc ⟨["Hymn"], "x\n".data⟩
        ⟨"Amazing Grace", "English", ["Offertory"], [], ["Hymn"]⟩).1 =
      ⟨.updated,
        " | ".intercalate
          (([(update_song_tags_core ⟨["Hymn"], "x\n".data⟩
                (⟨"Amazing Grace", "English", ["Offertory"], [], ["Hymn"]⟩ :
                  SongData).all_tags).2.1,
             if pyNormalize ("x\n".data) = "x\n".data then ""
             else "Updated content spacing"]).filter (· ≠ "")),
        "Amazing Grace"⟩ ∧
    (update_song_tags_core ⟨["Hymn"], "x\n".data⟩
        (⟨"Amazing Grace", "English", ["Offertory"], [], ["Hymn"]⟩ : SongData).all_tags).2.1
      = "Added: Offertory" := by
  refine ⟨by decide, (tag_content_outcomes.1 _ _).1 (Or.inl (by decide)), ?_⟩
  have h1 : reconcile (⟨["Hymn"], "x\n".data⟩ : Doc).tags.toFinset
      (⟨"Amazing Grace", "English", ["Offertory"], [], ["Hymn"]⟩ : SongData).all_tags =
      (true, {"Offertory"}, ∅) := by decide
  unfold update_song_tags_core
  rw [h1]
  simp only [if_true]
  have h2 : sortTags {"Offertory"} = ["Offertory"] := Finset.sort_singleton _ _
  simp [h2]
  decide

/-! ## Claim C6: persistence of combined changes -/

/-- C6 (amended): when reconciliation produces changes, each changed aspect is
persisted by its own full-document write — `(tags changed ? 1 : 0) +
(content changed ? 1 : 0)` writes in total, so a record needing both changes
causes two writes, not one — and the final persisted state combines both
changes (sorted desired tags when the tag set changed, normalized content). -/
theorem single_write_per_aspect (doc : Doc) (sd : SongData) :
    (update_song_file noExc doc sd).2.2 =
      (if (update_song_tags_core doc sd.all_tags).1 = true then 1 else 0) +
      (if pyNormalize doc.content = doc.content then 0 else 1) ∧
    (update_song_file noExc doc sd).2.1.content = pyNormalize doc.content ∧
    (update_song_file noExc doc sd).2.1.tags =
      (if (update_song_tags_core doc sd.all_tags).1 = true
        then sortTags sd.all_tags else doc.tags) := by
  rw [update_song_file_noExc]
  by_cases h : (update_song_tags_core doc sd.all_tags).1 = true ∨
      ¬ pyNormalize doc.content = doc.content
  · rw [if_pos h]
    exact ⟨rfl, rfl, rfl⟩
  · rw [if_neg h]
    obtain ⟨h1, h2⟩ := not_or.mp h
    have h2' : pyNormalize doc.content = doc.content := not_not.mp h2
    exact ⟨by simp [h1, h2'], h2'.symm, by simp [h1]⟩

/-- C6 counterexample: the document `(tags := ["Old"], content := "a \nb")`
against a record with tags `["New"]` needs both a tag change and a content
change; the run reports `Updated` but performs two file writes, so the
document is not persisted exactly once in a single write. -/
theorem single_write_counterexample :
    (update_song_file noExc ⟨["Old"], "a \nb".data⟩
        ⟨"T", "English", ["New"], [], []⟩).1.status = .updated ∧
    (update_song_file noExc ⟨["Old"], "a \nb".data⟩
        ⟨"T", "English", ["New"], [], []⟩).2.2 = 2 ∧
    (update_song_file noExc ⟨["Old"], "a \nb".data⟩
        ⟨"T", "English", ["New"], [], []⟩).2.2 ≠ 1 := by
  refine ⟨by decide, by decide, by decide⟩

/-! ## Claim C7: lyrics sync is a no-op on trim-equal lyrics -/

/-- C7 (amended): for a record whose remote lyrics field is non-empty and
equals the local document's content after trimming surrounding whitespace on
both sides, provided the local content does not trim to empty, the decision
is `Unchanged` (`SUCCESS`, `"Lyrics already up to date"`) and no update
payload is produced — in particular it is never `Updated` when the two sides
differ only in leading/trailing whitespace.  (As stated for all records the
claim fails when both sides trim to empty: the code reports `Failed`, see the
counterexample.) -/
theorem lyrics_unchanged_on_trim_equal (doc : Doc) (sd : SongData)
    (rec : AirtableRecord)
    (hlocal : pyStrip doc.content ≠ [])
    (hremote : rec.fields.lyrics?.getD [] ≠ [])
    (heq : pyStrip (rec.fields.lyrics?.getD []) = pyStrip doc.content) :
    process_single_lyrics (some (doc, none)) sd rec =
      (⟨.success, "Lyrics already up to date", sd.title⟩, none) := by
  have hcne : doc.content ≠ [] := by
    intro hc
    rw [hc] at hlocal
    exact hlocal rfl
  simp only [process_single_lyrics, read_song_lyrics, if_neg hcne]
  rw [if_neg hlocal, if_pos ⟨hremote, heq⟩]

/-- C7 counterexample: a document whose content is a single space and a
record whose remote lyrics field is a single space — the remote field is
non-empty and both sides trim to the same (empty) string, yet the decision
is `Failed` (`"No lyrics content found"`), not `Unchanged`. -/
theorem lyrics_unchanged_counterexample :
    ((⟨"id", ⟨some "T", none, [], [], [], some " ".data⟩⟩ :
        AirtableRecord).fields.lyrics?.getD [] ≠ []) ∧
    pyStrip ((⟨"id", ⟨some "T", none, [], [], [], some " ".data⟩⟩ :
        AirtableRecord).fields.lyrics?.getD []) =
      pyStrip ((⟨[], " ".data⟩ : Doc).content) ∧
    (process_single_lyrics (some (⟨[], " ".data⟩, none))
        ⟨"T", "English", [], [], []⟩
        ⟨"id", ⟨some "T", none, [], [], [], some " ".data⟩⟩).1.status = .failed ∧
    (process_single_lyrics (some (⟨[], " ".data⟩, none))
        ⟨"T", "English", [], [], []⟩
        ⟨"id", ⟨some "T", none, [], [], [], some " ".data⟩⟩).1.status ≠ .success := by
  refine ⟨by decide, by decide, by decide, by decide⟩

/-- C7 witness: local content `"Hello\n"` and remote lyrics `" Hello "`
differ only in surrounding whitespace, so the decision is `Unchanged` with no
payload. -/
theorem lyrics_unchanged_witness :
    (pyStrip (("Hello\n".data : PyStr)) ≠ []) ∧
    ((⟨"id", ⟨some "T", none, [], [], [], some " Hello ".data⟩⟩ :
        AirtableRecord).fields.lyrics?.getD [] ≠ []) ∧
    pyStrip ((⟨"id", ⟨some "T", none, [], [], [], some " Hello ".data⟩⟩ :
        AirtableRecord).fields.lyrics?.getD []) =
      pyStrip ((⟨[], "Hello\n".data⟩ : Doc).content) ∧
    process_single_lyrics (some (⟨[], "Hello\n".data⟩, none))
        ⟨"T", "English", [], [], []⟩
        ⟨"id", ⟨some "T", none, [], [], [], some " Hello ".data⟩⟩ =
      (⟨.success, "Lyrics already up to date", "T"⟩, none) :=
  ⟨by decide, by decide, by decide,
   lyrics_unchanged_on_trim_equal ⟨[], "Hello\n".data⟩ ⟨"T", "English", [], [], []⟩
     ⟨"id", ⟨some "T", none, [], [], [], some " Hello ".data⟩⟩
     (by decide) (by decide) (by decide)⟩

/-! ## Claim C8: records without a title are skipped -/

/-- C8: a record whose title field is missing or empty is skipped — the
parser yields `None`, no outcome record is produced for it, no error is
raised (the pipelines are total functions), and the remaining records of the
batch are processed exactly as if the titleless record were absent, in both
modes. -/
theorem titleless_skipped (rec : AirtableRecord)
    (h : rec.fields.title? = none ∨ rec.fields.title? = some "") :
    parse_record rec = none ∧
    (∀ (store : TagStore) (pre post : List AirtableRecord),
      process_songs store (pre ++ rec :: post) = process_songs store (pre ++ post)) ∧
    (∀ (store : LyricsStore) (fails : Bool) (pre post : List AirtableRecord),
      sync_lyrics_process store fails (pre ++ rec :: post) =
        sync_lyrics_process store fails (pre ++ post)) := by
  have hparse : parse_record rec = none := by
    rcases h with h1 | h1 <;> simp [parse_record, h1]
  refine ⟨hparse, fun store pre post => ?_, fun store fails pre post => ?_⟩
  · simp [process_songs, List.filterMap_append, hparse]
  · have hpp : planPairs store (pre ++ rec :: post) = planPairs store (pre ++ post) := by
      simp [planPairs, List.filterMap_append, hparse]
    unfold sync_lyrics_process
    rw [hpp]

/-- C8 witness: a record with no title field at all is skipped by the parser
and leaves the batch outcome list unchanged. -/
theorem titleless_skipped_witness :
    parse_record ⟨"id", ⟨none, none, [], [], [], none⟩⟩ = none ∧
    process_songs (fun _ _ => none)
        ([] ++ ⟨"id", ⟨none, none, [], [], [], none⟩⟩ :: []) =
      process_songs (fun _ _ => none) ([] ++ []) :=
  ⟨(titleless_skipped ⟨"id", ⟨none, none, [], [], [], none⟩⟩ (Or.inl rfl)).1,
   (titleless_skipped ⟨"id", ⟨none, none, [], [], [], none⟩⟩ (Or.inl rfl)).2.1
     (fun _ _ => none) [] []⟩
